import Mathlib

/-!
Verification of the queue primitive of this repository.

The queue implementation file itself is not part of the source slice under
review (only its test suite, `packages/effect/test/Queue.test.ts`, is
present), so the state machine below is modelled from the specification of
the queue: its data model (buffer, capacity, admission strategy, monotone
`Open → Closing → Closed` completion state, FIFO lists of parked offerers
and takers), the offer/take paths, the completion protocol (`end`, `fail`,
`shutdown`, `await`) and the cancellation contract.  Concurrency in the
tests is cooperative and deterministic (forked fibers run until their first
suspension point, parked fibers are resumed in FIFO order as capacity frees
or completion is signalled), so every test scenario is a deterministic
sequence of atomic state transitions, which is what the executor below
replays.
-/

set_option maxHeartbeats 1600000

namespace QueueSpec

/-- Modelled from the spec: the admission strategy of a bounded queue,
decides what happens when the buffer is full at offer time
(back-pressure, reject excess, or evict oldest). -/
inductive Strategy : Type where
  | suspend
  | dropping
  | sliding
deriving DecidableEq, Repr

/-- Modelled from the spec: the terminal classification of a closed queue —
normal end, domain failure `e`, or hard shutdown. -/
inductive CloseReason (E : Type) : Type where
  | endNormally
  | failed (e : E)
  | shutDown
deriving DecidableEq, Repr

/-- Modelled from the spec: the completion state machine
`Open → Closing(reason) → Closed(reason)`; the transition is monotonic. -/
inductive QState (E : Type) : Type where
  | opened
  | closing (r : CloseReason E)
  | closed (r : CloseReason E)
deriving DecidableEq, Repr

/-- Modelled from the spec: a parked producer continuation — the fiber id,
whether it came from a single `offer` (resumes with a boolean) or from
`offerAll` (resumes with the unadmitted remainder), and the pending
sub-sequence of items still to be admitted. -/
structure Offerer (T : Type) : Type where
  id : Nat
  single : Bool
  remaining : List T
deriving DecidableEq, Repr

/-- Modelled from the spec: the request kind of a parked consumer
continuation: one item, or all immediately available items. -/
inductive TakerReq : Type where
  | one
  | all
deriving DecidableEq, Repr

/-- Modelled from the spec: a parked consumer continuation. -/
structure Taker : Type where
  id : Nat
  req : TakerReq
deriving DecidableEq, Repr

/-- Modelled from the spec: the structural completion failure of the
take-family operations: `done` ("no more items will ever arrive") or the
domain error supplied to `fail`. -/
inductive QErr (E : Type) : Type where
  | done
  | err (e : E)
deriving DecidableEq, Repr

/-- Modelled from the spec: `isDone` classifies a propagated failure as
completion-vs-domain-error. -/
def isDone {E : Type} : QErr E → Bool
  | QErr.done => true
  | QErr.err _ => false

/-- Modelled from the spec: the result with which a queue operation
completes (immediately or on resumption of its parked continuation). -/
inductive Res (T E : Type) : Type where
  | offered (b : Bool)
  | offeredAll (remaining : List T)
  | took (x : T)
  | tookAll (xs : List T)
  | takeFail (e : QErr E)
  | awaited (failure : Option E)
deriving DecidableEq, Repr

/-- Modelled from the spec: the authoritative queue state — buffer (FIFO),
capacity (`none` = unbounded), strategy, completion state, parked offerers
and takers in arrival order, parked `await` callers, and whether the
`Fail(e)` reason has already been surfaced exactly once to a consumer. -/
structure QueueM (T E : Type) : Type where
  cap : Option Nat
  strat : Strategy
  buffer : List T
  state : QState E
  offerers : List (Offerer T)
  takers : List Taker
  awaiters : List Nat
  failTaken : Bool
deriving DecidableEq, Repr

/-- Build a queue state from its eight fields, in declaration order. -/
def mkQ {T E : Type} (cap : Option Nat) (strat : Strategy) (buffer : List T)
    (state : QState E) (offerers : List (Offerer T)) (takers : List Taker)
    (awaiters : List Nat) (failTaken : Bool) : QueueM T E :=
  { cap := cap, strat := strat, buffer := buffer, state := state,
    offerers := offerers, takers := takers, awaiters := awaiters,
    failTaken := failTaken }

/-- Modelled from the spec: a queue as returned by the constructors, with
the given capacity and strategy, open and empty. -/
def QueueM.mk0 (T E : Type) (cap : Option Nat) (strat : Strategy) : QueueM T E :=
  { cap := cap, strat := strat, buffer := [], state := QState.opened,
    offerers := [], takers := [], awaiters := [], failTaken := false }

/-- Modelled from the spec: an execution = queue state plus the log of
completed fiber results, in completion order. -/
structure Exec (T E : Type) : Type where
  q : QueueM T E
  log : List (Nat × Res T E)
deriving DecidableEq, Repr

/-- Build an execution from a queue state and a log. -/
def mkEx {T E : Type} (q : QueueM T E) (log : List (Nat × Res T E)) : Exec T E :=
  { q := q, log := log }

/-- The completion result of fiber `fid`, if it has completed. -/
def resultOf {T E : Type} (ex : Exec T E) (fid : Nat) : Option (Res T E) :=
  (ex.log.find? (fun p => p.1 = fid)).map (fun p => p.2)

/-- Every item ever delivered to a consumer in this execution, in delivery
order. -/
def delivered {T E : Type} (ex : Exec T E) : List T :=
  ex.log.flatMap (fun p =>
    match p.2 with
    | Res.took x => [x]
    | Res.tookAll xs => xs
    | _ => [])

/-- Whether the buffer has free space under the given capacity. -/
def capFits (cap : Option Nat) (len : Nat) : Bool :=
  match cap with
  | none => true
  | some c => len < c

/-- Modelled from the spec: the sliding fit — keep the most recently
offered items, evicting from the front (oldest first) until the sequence
fits the capacity. -/
def slideFit (cap : Option Nat) (l : List T) : List T :=
  match cap with
  | none => l
  | some c => l.drop (l.length - c)

/-- The result a completed offerer resumes with: `true` for a single
`offer`, the empty remainder for `offerAll`. -/
def offererDoneRes {T E : Type} (o : Offerer T) : Res T E :=
  if o.single then Res.offered true else Res.offeredAll ([] : List T)

/-- Modelled from the spec: one normalization step of the queue after a
mutation, in priority order: (1) deliver buffered items to the first parked
taker (FIFO); (2) admit one more item of the first parked offerer when
capacity allows (or, at capacity 0, when a taker is parked and the buffer
is empty), completing the offerer when its pending sequence empties;
(3) once a closing queue is fully drained (empty buffer, no pending
offerers) it becomes `Closed(reason)` and every parked taker and `await`
caller is resolved according to the reason — for `Fail(e)` the failure is
delivered exactly once, to the first parked taker in FIFO order, `done` to
the rest.  Returns `none` when the state is already normal. -/
def rstep {T E : Type} (ex : Exec T E) : Option (Exec T E) :=
  match ex.q.takers, ex.q.buffer with
  | t :: ts, x :: xs =>
    match t.req with
    | TakerReq.one =>
        some { q := { ex.q with takers := ts, buffer := xs },
               log := ex.log ++ [(t.id, Res.took x)] }
    | TakerReq.all =>
        some { q := { ex.q with takers := ts, buffer := [] },
               log := ex.log ++ [(t.id, Res.tookAll (x :: xs))] }
  | takers, buffer =>
    match ex.q.offerers with
    | o :: os =>
      if capFits ex.q.cap buffer.length || (!takers.isEmpty && buffer.isEmpty) then
        match o.remaining with
        | [] =>
            some { q := { ex.q with offerers := os },
                   log := ex.log ++ [(o.id, offererDoneRes o)] }
        | y :: ys =>
            if ys.isEmpty then
              some { q := { ex.q with buffer := buffer ++ [y], offerers := os },
                     log := ex.log ++ [(o.id, offererDoneRes o)] }
            else
              let o2 : Offerer T := { o with remaining := ys }
              some { q := { ex.q with buffer := buffer ++ [y], offerers := o2 :: os },
                     log := ex.log }
      else none
    | [] =>
      match ex.q.state with
      | QState.closing r =>
        if buffer.isEmpty then
          let takerRes : List (Nat × Res T E) :=
            match r, takers with
            | CloseReason.failed e, t :: ts =>
                if ex.q.failTaken then
                  (t :: ts).map (fun w => (w.id, Res.takeFail (QErr.done : QErr E)))
                else
                  (t.id, Res.takeFail (QErr.err e)) ::
                    ts.map (fun w => (w.id, Res.takeFail (QErr.done : QErr E)))
            | _, ws => ws.map (fun w => (w.id, Res.takeFail (QErr.done : QErr E)))
          let awaitRes : List (Nat × Res T E) :=
            match r with
            | CloseReason.failed e =>
                ex.q.awaiters.map (fun i => (i, Res.awaited (some e)))
            | _ => ex.q.awaiters.map (fun i => (i, Res.awaited none))
          let failNow : Bool :=
            match r with
            | CloseReason.failed _ => !takers.isEmpty
            | _ => false
          let q2 : QueueM T E :=
            { ex.q with state := QState.closed r, takers := [], awaiters := [],
                        failTaken := ex.q.failTaken || failNow }
          some { q := q2, log := ex.log ++ takerRes ++ awaitRes }
        else none
      | _ => none

/-- Modelled from the spec: iterate normalization steps until none applies
(fuel-bounded; the callers supply enough fuel for the pending work). -/
def rebalance {T E : Type} : Nat → Exec T E → Exec T E
  | 0, ex => ex
  | n + 1, ex =>
    match rstep ex with
    | none => ex
    | some ex2 => rebalance n ex2

/-- Fuel sufficient for the normalization loop of the given queue. -/
def fuelOf {T E : Type} (q : QueueM T E) : Nat :=
  2 * (q.offerers.map (fun o => o.remaining.length + 1)).sum
    + q.buffer.length + q.takers.length + q.awaiters.length + 4

/-- Renormalize an execution, with fuel computed from its queue. -/
def norm {T E : Type} (ex : Exec T E) : Exec T E :=
  rebalance (fuelOf ex.q) ex

/-- Modelled from the spec: `offer(queue, item)`.  If the state is not
`Open`, complete with `false`.  Otherwise, if the item fits, append it to
the buffer and wake parked takers; if it does not fit: `dropping` completes
with `false` discarding the item, `sliding` always admits, evicting the
oldest, and `suspend` parks the calling fiber with the pending item in
`offerers` (FIFO). -/
def offerOp {T E : Type} (fid : Nat) (x : T) (ex : Exec T E) : Exec T E :=
  match ex.q.state with
  | QState.opened =>
    if capFits ex.q.cap ex.q.buffer.length then
      norm { q := { ex.q with buffer := ex.q.buffer ++ [x] },
             log := ex.log ++ [(fid, Res.offered true)] }
    else
      match ex.q.strat with
      | Strategy.dropping =>
          { ex with log := ex.log ++ [(fid, Res.offered false)] }
      | Strategy.sliding =>
          norm { q := { ex.q with buffer := slideFit ex.q.cap (ex.q.buffer ++ [x]) },
                 log := ex.log ++ [(fid, Res.offered true)] }
      | Strategy.suspend =>
          let o : Offerer T := { id := fid, single := true, remaining := [x] }
          norm { q := { ex.q with offerers := ex.q.offerers ++ [o] }, log := ex.log }
  | _ => { ex with log := ex.log ++ [(fid, Res.offered false)] }

/-- Modelled from the spec: `offerAll(queue, items)` — repeated `offer` as
one coordinated call, completing with the sub-sequence that could not be
admitted (relative order preserved).  Under `suspend` the unadmitted
remainder is carried by a parked offerer resumed (FIFO) as space frees;
`dropping` immediately completes with the rejected remainder; `sliding`
admits everything, evicting oldest first.  If the state is not `Open`,
nothing is admitted and the whole sequence comes back. -/
def offerAllOp {T E : Type} (fid : Nat) (xs : List T) (ex : Exec T E) : Exec T E :=
  match ex.q.state with
  | QState.opened =>
    match ex.q.cap with
    | none =>
        norm { q := { ex.q with buffer := ex.q.buffer ++ xs },
               log := ex.log ++ [(fid, Res.offeredAll [])] }
    | some c =>
      let free : Nat := c - ex.q.buffer.length
      match ex.q.strat with
      | Strategy.suspend =>
        if xs.length ≤ free then
          norm { q := { ex.q with buffer := ex.q.buffer ++ xs },
                 log := ex.log ++ [(fid, Res.offeredAll [])] }
        else
          let o : Offerer T := { id := fid, single := false, remaining := xs.drop free }
          let q2 : QueueM T E :=
            { ex.q with buffer := ex.q.buffer ++ xs.take free,
                        offerers := ex.q.offerers ++ [o] }
          norm { q := q2, log := ex.log }
      | Strategy.dropping =>
          norm { q := { ex.q with buffer := ex.q.buffer ++ xs.take free },
                 log := ex.log ++ [(fid, Res.offeredAll (xs.drop free))] }
      | Strategy.sliding =>
          norm { q := { ex.q with buffer := slideFit ex.q.cap (ex.q.buffer ++ xs) },
                 log := ex.log ++ [(fid, Res.offeredAll [])] }
  | _ => { ex with log := ex.log ++ [(fid, Res.offeredAll xs)] }

/-- The failure with which a take-family call completes on a drained,
completed queue: `Done` for `EndNormally`/`ShutDown`; for `Fail(e)` the
error `e` on its first surfacing, `Done` thereafter. -/
def takeFailRes {E : Type} (r : CloseReason E) (failTaken : Bool) :
    QErr E × Bool :=
  match r with
  | CloseReason.failed e => if failTaken then (QErr.done, true) else (QErr.err e, true)
  | _ => (QErr.done, failTaken)

/-- Modelled from the spec: `take(queue)` — pop the front of a non-empty
buffer (waking parked offerers as capacity frees); on an empty buffer, park
while the queue is open or while parked offerers still hold pending items;
on an empty, completed queue fail with `Done`, or with `e` exactly once
when the reason is `Fail(e)`. -/
def takeOp {T E : Type} (fid : Nat) (ex : Exec T E) : Exec T E :=
  match ex.q.buffer with
  | x :: rest =>
      norm { q := { ex.q with buffer := rest },
             log := ex.log ++ [(fid, Res.took x)] }
  | [] =>
    if !ex.q.offerers.isEmpty then
      let t : Taker := { id := fid, req := TakerReq.one }
      norm { q := { ex.q with takers := ex.q.takers ++ [t] }, log := ex.log }
    else
      match ex.q.state with
      | QState.opened =>
          let t : Taker := { id := fid, req := TakerReq.one }
          norm { q := { ex.q with takers := ex.q.takers ++ [t] }, log := ex.log }
      | QState.closing r =>
          let p := takeFailRes r ex.q.failTaken
          { q := { ex.q with failTaken := p.2 },
            log := ex.log ++ [(fid, Res.takeFail p.1)] }
      | QState.closed r =>
          let p := takeFailRes r ex.q.failTaken
          { q := { ex.q with failTaken := p.2 },
            log := ex.log ++ [(fid, Res.takeFail p.1)] }

/-- Modelled from the spec: `takeAll(queue)` — drain the entire current
buffer atomically when non-empty (regardless of completion state), waking
parked offerers; on an empty buffer, park while the queue is open or
pending offers remain, and deliver whatever becomes available; on an
empty, completed queue fail exactly as `take` does. -/
def takeAllOp {T E : Type} (fid : Nat) (ex : Exec T E) : Exec T E :=
  match ex.q.buffer with
  | x :: rest =>
      norm { q := { ex.q with buffer := [] },
             log := ex.log ++ [(fid, Res.tookAll (x :: rest))] }
  | [] =>
    if !ex.q.offerers.isEmpty then
      let t : Taker := { id := fid, req := TakerReq.all }
      norm { q := { ex.q with takers := ex.q.takers ++ [t] }, log := ex.log }
    else
      match ex.q.state with
      | QState.opened =>
          let t : Taker := { id := fid, req := TakerReq.all }
          norm { q := { ex.q with takers := ex.q.takers ++ [t] }, log := ex.log }
      | QState.closing r =>
          let p := takeFailRes r ex.q.failTaken
          { q := { ex.q with failTaken := p.2 },
            log := ex.log ++ [(fid, Res.takeFail p.1)] }
      | QState.closed r =>
          let p := takeFailRes r ex.q.failTaken
          { q := { ex.q with failTaken := p.2 },
            log := ex.log ++ [(fid, Res.takeFail p.1)] }

/-- Modelled from the spec: `end(queue)` — request the transition to
`Closing(EndNormally)`.  Buffered items and already-queued offers are still
delivered; once fully drained the state becomes `Closed(EndNormally)`.
No-op when the queue is already closing or closed (idempotent). -/
def endOp {T E : Type} (ex : Exec T E) : Exec T E :=
  match ex.q.state with
  | QState.opened =>
      norm { q := { ex.q with state := QState.closing CloseReason.endNormally },
             log := ex.log }
  | _ => ex

/-- Modelled from the spec: `fail(queue, e)` — request the transition to
`Closing(Fail(e))`.  Buffered items and already-queued offers are still
delivered in order; once drained, takes surface `e` exactly once and `Done`
thereafter.  No-op when already closing or closed (idempotent). -/
def failOp {T E : Type} (e : E) (ex : Exec T E) : Exec T E :=
  match ex.q.state with
  | QState.opened =>
      norm { q := { ex.q with state := QState.closing (CloseReason.failed e) },
             log := ex.log }
  | _ => ex

/-- Modelled from the spec: `shutdown(queue)` — immediate hard stop: the
buffer is discarded, parked offerers are resolved immediately (a single
`offer` with `false`, an `offerAll` with its unadmitted remainder), and
normalization resolves every parked taker and `await` caller, settling the
state at `Closed(ShutDown)`.  No-op when already closing or closed. -/
def shutdownOp {T E : Type} (ex : Exec T E) : Exec T E :=
  match ex.q.state with
  | QState.opened =>
      let offererRes : List (Nat × Res T E) :=
        ex.q.offerers.map (fun o =>
          (o.id, if o.single then Res.offered false else Res.offeredAll o.remaining))
      let q2 : QueueM T E :=
        { ex.q with state := QState.closing CloseReason.shutDown,
                    buffer := [], offerers := [] }
      norm { q := q2, log := ex.log ++ offererRes }
  | _ => ex

/-- Modelled from the spec: `await(queue)` — suspends until the queue
reaches `Closed` (any reason) with its buffer fully drained; resolves with
success on `EndNormally`/`ShutDown` and with the failure `e` on
`Fail(e)`. -/
def awaitOp {T E : Type} (fid : Nat) (ex : Exec T E) : Exec T E :=
  match ex.q.state with
  | QState.closed r =>
      match r with
      | CloseReason.failed e =>
          { ex with log := ex.log ++ [(fid, Res.awaited (some e))] }
      | _ => { ex with log := ex.log ++ [(fid, Res.awaited none)] }
  | _ =>
      norm { q := { ex.q with awaiters := ex.q.awaiters ++ [fid] }, log := ex.log }

/-- Modelled from the spec: cancellation of a parked offer — the admitted
prefix remains in the buffer (never rolled back); only the parked entry
with its unadmitted remainder is removed, preserving the FIFO order of the
other parked offerers. -/
def interruptOfferOp {T E : Type} (fid : Nat) (ex : Exec T E) : Exec T E :=
  { ex with q := { ex.q with offerers := ex.q.offerers.filter (fun o => o.id ≠ fid) } }

/-- A queue operation issued by one fiber of a test scenario.  In the
cooperative scheduler of the tests each forked fiber runs its single queue
operation up to its first suspension point, in fork order, so a scenario is
a sequence of these commands. -/
inductive Cmd (T E : Type) : Type where
  | offer (x : T)
  | offerAll (xs : List T)
  | take
  | takeAll
  | endQ
  | failQ (e : E)
  | shutdownQ
  | awaitQ
  | interruptOffer (fid : Nat)
deriving DecidableEq, Repr

/-- Run one command on behalf of fiber `fid`. -/
def runCmd {T E : Type} (fid : Nat) (c : Cmd T E) (ex : Exec T E) : Exec T E :=
  match c with
  | Cmd.offer x => offerOp fid x ex
  | Cmd.offerAll xs => offerAllOp fid xs ex
  | Cmd.take => takeOp fid ex
  | Cmd.takeAll => takeAllOp fid ex
  | Cmd.endQ => endOp ex
  | Cmd.failQ e => failOp e ex
  | Cmd.shutdownQ => shutdownOp ex
  | Cmd.awaitQ => awaitOp fid ex
  | Cmd.interruptOffer i => interruptOfferOp i ex

/-- Run a list of commands; the fiber id of each command is `fid0` plus its
position in the list. -/
def runCmds {T E : Type} (fid0 : Nat) : List (Cmd T E) → Exec T E → Exec T E
  | [], ex => ex
  | c :: cs, ex => runCmds (fid0 + 1) cs (runCmd fid0 c ex)

/-- A fresh execution on an empty open queue. -/
def start (T E : Type) (cap : Option Nat) (strat : Strategy) : Exec T E :=
  { q := QueueM.mk0 T E cap strat, log := [] }

/-- Drain the queue by repeated `takeAll` calls (how `Stream.fromQueue`
consumes it), with fresh fiber ids from `fid0`, until a take-family call
fails; returns the concatenated items, the terminal failure, and the final
execution.  Fuel-bounded; `none` as the failure means fuel ran out or a
call parked. -/
def drainAll {T E : Type} : Nat → Nat → Exec T E → List T × Option (QErr E) × Exec T E
  | 0, _, ex => ([], none, ex)
  | fuel + 1, fid0, ex =>
    let ex2 := takeAllOp fid0 ex
    match resultOf ex2 fid0 with
    | some (Res.tookAll xs) =>
        let r := drainAll fuel (fid0 + 1) ex2
        (xs ++ r.1, r.2.1, r.2.2)
    | some (Res.takeFail e) => ([], some e, ex2)
    | _ => ([], none, ex2)

/-! Concrete executions replaying the deterministic test scenarios. -/

/-- A fresh Bounded(2) back-pressure queue. -/
def bounded2 : Exec Nat String := start Nat String (some 2) Strategy.suspend

/-- Scenario: two offerAll batches and a single offer forked, then `end`. -/
def c1Ex : Exec Nat String :=
  runCmds 0
    [Cmd.offerAll [1, 2, 3, 4], Cmd.offerAll [5, 6, 7, 8], Cmd.offer 9, Cmd.endQ]
    bounded2

/-- Draining the `end` scenario via repeated `takeAll`. -/
def c1Drain : List Nat × Option (QErr String) × Exec Nat String :=
  drainAll 20 100 c1Ex

/-- After the drain: an `await` call and a late `offer 10`. -/
def c1Final : Exec Nat String := runCmds 200 [Cmd.awaitQ, Cmd.offer 10] c1Drain.2.2

/-- Scenario: a forked offerAll on a full Bounded(2) queue. -/
def c2Ex : Exec Nat String := runCmds 0 [Cmd.offerAll [1, 2, 3, 4]] bounded2

/-- First takeAll of the backpressure scenario. -/
def c2TakeA : Exec Nat String := takeAllOp 1 c2Ex

/-- Second takeAll of the backpressure scenario. -/
def c2TakeB : Exec Nat String := takeAllOp 2 c2TakeA

/-- Scenario: offerAll and offer forked, then `fail "boom"`, then four
takeAll calls, an `await` and a late offer. -/
def c3Ex : Exec Nat String :=
  runCmds 0
    [Cmd.offerAll [1, 2, 3, 4], Cmd.offer 5, Cmd.failQ "boom",
     Cmd.takeAll, Cmd.takeAll, Cmd.takeAll, Cmd.takeAll, Cmd.awaitQ, Cmd.offer 6]
    bounded2

/-- The fail scenario continued with further take-family calls. -/
def c3Later : Exec Nat String := runCmds 9 [Cmd.takeAll, Cmd.take] c3Ex

/-- Scenario: two forked offerAll batches, then `shutdown`. -/
def c4Ex : Exec Nat String :=
  runCmds 0 [Cmd.offerAll [1, 2, 3, 4], Cmd.offerAll [5, 6, 7, 8], Cmd.shutdownQ]
    bounded2

/-- Draining the shutdown scenario. -/
def c4Drain : List Nat × Option (QErr String) × Exec Nat String :=
  drainAll 20 100 c4Ex

/-- After the shutdown drain: `await` and a late offer. -/
def c4Final : Exec Nat String := runCmds 200 [Cmd.awaitQ, Cmd.offer 10] c4Drain.2.2

/-- Scenario: Bounded(2) dropping queue, offerAll then offer then takeAll. -/
def c5Ex : Exec Nat String :=
  runCmds 0 [Cmd.offerAll [1, 2, 3, 4], Cmd.offer 5, Cmd.takeAll]
    (start Nat String (some 2) Strategy.dropping)

/-- Scenario: Bounded(2) sliding queue, offerAll then offer then takeAll. -/
def c6Ex : Exec Nat String :=
  runCmds 0 [Cmd.offerAll [1, 2, 3, 4], Cmd.offer 5, Cmd.takeAll]
    (start Nat String (some 2) Strategy.sliding)

/-- Scenario: forked offerAll interrupted after its first batch was
admitted, then takeAll, a fresh offer and another takeAll. -/
def c7Ex : Exec Nat String :=
  runCmds 0
    [Cmd.offerAll [1, 2, 3, 4], Cmd.interruptOffer 0, Cmd.takeAll,
     Cmd.offer 5, Cmd.takeAll]
    bounded2

/-- Scenario: `await` forked on an unbounded queue, then offer 1, `end`. -/
def c8Ex : Exec Nat String :=
  runCmds 0 [Cmd.awaitQ, Cmd.offer 1, Cmd.endQ] (start Nat String none Strategy.suspend)

/-- The await scenario after the buffer is drained. -/
def c8Take : Exec Nat String := takeAllOp 3 c8Ex

/-- Scenario: capacity-0 queue, forked offer of `x` parked first. -/
def c9A (x : Nat) : Exec Nat String :=
  runCmds 0 [Cmd.offer x] (start Nat String (some 0) Strategy.suspend)

/-- Capacity-0 scenario continued: a take (served by the parked offer), a
second take parked first, then an offer of `y` completing it. -/
def c9B (x y : Nat) : Exec Nat String :=
  runCmds 1 [Cmd.take, Cmd.take, Cmd.offer y] (c9A x)

/-- Scenario: offerAll and offer forked with pending parked items, then
`fail "boom"`, consumed by a full drain. -/
def c10Ex : Exec Nat String :=
  runCmds 0 [Cmd.offerAll [1, 2, 3, 4], Cmd.offer 5, Cmd.failQ "boom"] bounded2

/-- Draining the fail scenario completely. -/
def c10Drain : List Nat × Option (QErr String) × Exec Nat String :=
  drainAll 20 100 c10Ex

/-! Helper lemmas shared by the claim theorems. -/

theorem rebalance_eq_self {T E : Type} (n : Nat) (ex : Exec T E)
    (h : rstep ex = none) : rebalance n ex = ex := by
  cases n with
  | zero => rfl
  | succ m => simp [rebalance, h]

theorem norm_eq_self {T E : Type} (ex : Exec T E) (h : rstep ex = none) :
    norm ex = ex :=
  rebalance_eq_self _ ex h

theorem rstep_none_idle {T E : Type} (cap : Option Nat) (strat : Strategy)
    (buf : List T) (aws : List Nat) (ft : Bool) (log : List (Nat × Res T E)) :
    rstep (mkEx (mkQ cap strat buf QState.opened [] [] aws ft) log) = none := by
  cases buf <;> rfl

theorem rstep_none_closing_cons {T E : Type} (cap : Option Nat) (strat : Strategy)
    (x : T) (xs : List T) (r : CloseReason E) (aws : List Nat) (ft : Bool)
    (log : List (Nat × Res T E)) :
    rstep (mkEx (mkQ cap strat (x :: xs) (QState.closing r) [] [] aws ft) log) = none := by
  rfl

/-! Claim theorems. -/

/-- C1: graceful end drains everything already submitted — on a Bounded(2)
queue with two forked offerAll batches and a forked single offer(9)
followed by `end`, draining via repeated `takeAll` yields
`[1,2,3,4,5,6,7,8,9]` in order and terminates on `Done`; all three
producers complete successfully; `await` then resolves with success, and a
subsequent `offer(10)` returns `false`. -/
theorem graceful_end_drains_everything :
    c1Drain.1 = [1, 2, 3, 4, 5, 6, 7, 8, 9] ∧
    c1Drain.2.1 = some QErr.done ∧
    resultOf c1Drain.2.2 0 = some (Res.offeredAll []) ∧
    resultOf c1Drain.2.2 1 = some (Res.offeredAll []) ∧
    resultOf c1Drain.2.2 2 = some (Res.offered true) ∧
    resultOf c1Final 200 = some (Res.awaited none) ∧
    resultOf c1Final 201 = some (Res.offered false) := by
  decide

/-- C2: backpressure splits an offerAll across wake cycles without loss or
reordering — with a forked `offerAll [1,2,3,4]` on a Bounded(2) queue the
offerAll has not completed while the buffer is full, the first `takeAll`
returns `[1,2]`, the second returns `[3,4]`, and the offerAll fiber has
completed successfully with remainder `[]`. -/
theorem backpressure_splits_offerAll :
    resultOf c2Ex 0 = none ∧
    c2Ex.q.buffer = [1, 2] ∧
    resultOf c2TakeA 1 = some (Res.tookAll [1, 2]) ∧
    resultOf c2TakeB 2 = some (Res.tookAll [3, 4]) ∧
    resultOf c2TakeB 0 = some (Res.offeredAll []) := by
  decide

/-- C3: after `fail(q, e)` all items buffered (or pending in parked offers)
at the time of the call are still delivered in FIFO order — `[1,2]`,
`[3,4]`, then `[5]` — then the next take-family call fails with `"boom"`
exactly once and later take-family calls fail with `Done`; in general, on a
queue whose failure has already been surfaced every take-family call fails
with `Done`, and every offer on a closing or closed queue returns
`false`. -/
theorem fail_surfaces_error_exactly_once :
    (resultOf c3Ex 3 = some (Res.tookAll [1, 2]) ∧
     resultOf c3Ex 4 = some (Res.tookAll [3, 4]) ∧
     resultOf c3Ex 5 = some (Res.tookAll [5]) ∧
     resultOf c3Ex 6 = some (Res.takeFail (QErr.err "boom")) ∧
     resultOf c3Ex 8 = some (Res.offered false) ∧
     resultOf c3Later 9 = some (Res.takeFail QErr.done) ∧
     resultOf c3Later 10 = some (Res.takeFail QErr.done)) ∧
    (∀ (cap : Option Nat) (strat : Strategy) (tks : List Taker) (aws : List Nat)
       (fid : Nat) (e : String),
       resultOf (takeOp fid (mkEx (mkQ cap strat ([] : List Nat)
           (QState.closed (CloseReason.failed e)) [] tks aws true) [])) fid
         = some (Res.takeFail QErr.done) ∧
       resultOf (takeAllOp fid (mkEx (mkQ cap strat ([] : List Nat)
           (QState.closed (CloseReason.failed e)) [] tks aws true) [])) fid
         = some (Res.takeFail QErr.done)) ∧
    (∀ (cap : Option Nat) (strat : Strategy) (buf : List Nat) (r : CloseReason String)
       (offs : List (Offerer Nat)) (tks : List Taker) (aws : List Nat) (ft : Bool)
       (fid x : Nat),
       resultOf (offerOp fid x (mkEx (mkQ cap strat buf (QState.closed r) offs tks aws ft)
           [])) fid = some (Res.offered false) ∧
       resultOf (offerOp fid x (mkEx (mkQ cap strat buf (QState.closing r) offs tks aws ft)
           [])) fid = some (Res.offered false)) := by
  refine ⟨by decide, ?_, ?_⟩
  · intro cap strat tks aws fid e
    constructor
    · simp [takeOp, takeFailRes, resultOf, mkQ, mkEx]
    · simp [takeAllOp, takeFailRes, resultOf, mkQ, mkEx]
  · intro cap strat buf r offs tks aws ft fid x
    constructor
    · simp [offerOp, resultOf, mkQ, mkEx]
    · simp [offerOp, resultOf, mkQ, mkEx]

/-- C4: `shutdown` discards the buffer and settles every party on `Done` —
after the shutdown scenario the drain delivers nothing and ends on `Done`,
no item is ever delivered to any consumer, `await` resolves with success, a
subsequent offer returns `false`, and the state is `Closed(ShutDown)` with
an empty buffer; in general every take-family call on a shut-down queue
fails with `Done`. -/
theorem shutdown_discards_buffer :
    (c4Drain.1 = [] ∧
     c4Drain.2.1 = some QErr.done ∧
     delivered c4Final = [] ∧
     resultOf c4Final 200 = some (Res.awaited none) ∧
     resultOf c4Final 201 = some (Res.offered false) ∧
     c4Ex.q.state = QState.closed CloseReason.shutDown ∧
     c4Ex.q.buffer = []) ∧
    (∀ (cap : Option Nat) (strat : Strategy) (tks : List Taker) (aws : List Nat)
       (fid : Nat) (ft : Bool),
       resultOf (takeOp fid (mkEx (mkQ cap strat ([] : List Nat)
           (QState.closed (CloseReason.shutDown : CloseReason String)) [] tks aws ft) []))
           fid = some (Res.takeFail QErr.done) ∧
       resultOf (takeAllOp fid (mkEx (mkQ cap strat ([] : List Nat)
           (QState.closed (CloseReason.shutDown : CloseReason String)) [] tks aws ft) []))
           fid = some (Res.takeFail QErr.done)) := by
  refine ⟨by decide, ?_⟩
  intro cap strat tks aws fid ft
  constructor
  · simp [takeOp, takeFailRes, resultOf, mkQ, mkEx]
  · simp [takeAllOp, takeFailRes, resultOf, mkQ, mkEx]

/-- C5: the dropping strategy rejects only the overflow and reports it —
`offerAll [1,2,3,4]` on a Bounded(2) dropping queue returns the remainder
`[3,4]`, a subsequent `offer 5` on the full queue returns `false`,
`takeAll` returns exactly `[1,2]`, and the rejected items are never
observed by any consumer: the full delivery history is `[1,2]` and nothing
is left buffered or pending. -/
theorem dropping_rejects_overflow :
    resultOf c5Ex 0 = some (Res.offeredAll [3, 4]) ∧
    resultOf c5Ex 1 = some (Res.offered false) ∧
    resultOf c5Ex 2 = some (Res.tookAll [1, 2]) ∧
    delivered c5Ex = [1, 2] ∧
    c5Ex.q.buffer = [] ∧
    c5Ex.q.offerers = [] := by
  decide

/-- C6: the sliding strategy always admits and evicts oldest first without
blocking — on a Bounded(2) sliding queue `offerAll [1,2,3,4]` returns `[]`,
a subsequent `offer 5` returns `true` and `takeAll` returns `[4,5]`; in
general, an offer on any open sliding queue whose buffer respects its
capacity `c` succeeds, and afterwards the buffer is a suffix of the old
buffer with the new item appended (the most recently offered items, oldest
evicted first) of length `min c (old length + 1)` — never exceeding the
capacity. -/
theorem sliding_admits_evicting_oldest :
    (resultOf c6Ex 0 = some (Res.offeredAll []) ∧
     resultOf c6Ex 1 = some (Res.offered true) ∧
     resultOf c6Ex 2 = some (Res.tookAll [4, 5])) ∧
    (∀ (buf : List Nat) (c fid x : Nat), buf.length ≤ c →
       resultOf (offerOp fid x (mkEx (mkQ (some c) Strategy.sliding buf
           (QState.opened : QState String) [] [] [] false) [])) fid
           = some (Res.offered true) ∧
       (offerOp fid x (mkEx (mkQ (some c) Strategy.sliding buf
           (QState.opened : QState String) [] [] [] false) [])).q.buffer.length
           = min c (buf.length + 1) ∧
       (offerOp fid x (mkEx (mkQ (some c) Strategy.sliding buf
           (QState.opened : QState String) [] [] [] false) [])).q.buffer
           <:+ (buf ++ [x])) := by
  refine ⟨by decide, ?_⟩
  intro buf c fid x hle
  by_cases h : buf.length < c
  · simp only [offerOp, mkQ, mkEx, capFits]
    rw [if_pos (by simpa using h)]
    rw [norm_eq_self _ ?hp]
    case hp => exact rstep_none_idle (some c) Strategy.sliding (buf ++ [x]) [] false _
    refine ⟨by simp [resultOf], ?_, ?_⟩
    · simp
      omega
    · simp
  · simp only [offerOp, mkQ, mkEx, capFits]
    rw [if_neg (by simpa using h)]
    simp only [slideFit]
    rw [norm_eq_self _ ?hn]
    case hn => exact rstep_none_idle (some c) Strategy.sliding _ [] false _
    refine ⟨by simp [resultOf], ?_, ?_⟩
    · simp
      omega
    · simp [List.drop_suffix]

/-- Witness for C6: the sliding invariant applied to the concrete open
sliding queue of capacity 2 holding `[5,6]`, offered `7`: the offer
succeeds and the buffer becomes the 2-item suffix `[6,7]`. -/
theorem sliding_admits_evicting_oldest_witness :
    resultOf (offerOp 0 7 (mkEx (mkQ (some 2) Strategy.sliding [5, 6]
        (QState.opened : QState String) [] [] [] false) [])) 0
        = some (Res.offered true) ∧
    (offerOp 0 7 (mkEx (mkQ (some 2) Strategy.sliding [5, 6]
        (QState.opened : QState String) [] [] [] false) [])).q.buffer.length
        = min 2 ([5, 6].length + 1) ∧
    (offerOp 0 7 (mkEx (mkQ (some 2) Strategy.sliding [5, 6]
        (QState.opened : QState String) [] [] [] false) [])).q.buffer
        <:+ ([5, 6] ++ [7]) :=
  sliding_admits_evicting_oldest.2 [5, 6] 2 0 7 (by decide)

/-- C7: interrupting a parked offerAll never rolls back admitted items — in
the interruption scenario `takeAll` returns the admitted prefix `[1,2]`, a
fresh `offer 5` succeeds, the next `takeAll` returns `[5]`, the overall
delivery history is `[1,2,5]` (the unadmitted remainder `[3,4]` is
permanently discarded), and in general cancelling a parked offer leaves the
buffer and the completion log untouched. -/
theorem interrupt_keeps_admitted_prefix :
    (resultOf c7Ex 2 = some (Res.tookAll [1, 2]) ∧
     resultOf c7Ex 3 = some (Res.offered true) ∧
     resultOf c7Ex 4 = some (Res.tookAll [5]) ∧
     delivered c7Ex = [1, 2, 5] ∧
     c7Ex.q.buffer = [] ∧
     c7Ex.q.offerers = []) ∧
    ∀ (ex : Exec Nat String) (fid : Nat),
      (interruptOfferOp fid ex).q.buffer = ex.q.buffer ∧
      (interruptOfferOp fid ex).log = ex.log := by
  refine ⟨by decide, ?_⟩
  intro ex fid
  exact ⟨rfl, rfl⟩

/-- C8: `await` never resolves before the queue is both closed and fully
drained, and resolves according to the closing reason — in the scenario the
parked `await` is still unresolved after `offer 1` and `end` (the queue is
only `Closing` with `[1]` buffered) and resolves with success exactly when
`takeAll` drains the buffer; in the fail scenario `await` resolves with the
failure `"boom"`; in general `await` on an open idle queue or on a closing
queue with a non-empty buffer stays suspended, while on a closed queue it
resolves immediately — success for `EndNormally` and `ShutDown`, the
failure `e` for `Fail(e)`. -/
theorem await_waits_for_closed_and_drained :
    (resultOf c8Ex 0 = none ∧
     c8Ex.q.state = QState.closing CloseReason.endNormally ∧
     c8Ex.q.buffer = [1] ∧
     resultOf c8Take 3 = some (Res.tookAll [1]) ∧
     resultOf c8Take 0 = some (Res.awaited none) ∧
     resultOf c3Ex 7 = some (Res.awaited (some "boom"))) ∧
    (∀ (cap : Option Nat) (strat : Strategy) (buf : List Nat) (aws : List Nat)
       (ft : Bool) (fid : Nat),
       resultOf (awaitOp fid (mkEx (mkQ cap strat buf (QState.opened : QState String)
           [] [] aws ft) [])) fid = none) ∧
    (∀ (cap : Option Nat) (strat : Strategy) (x : Nat) (xs : List Nat)
       (r : CloseReason String) (aws : List Nat) (ft : Bool) (fid : Nat),
       resultOf (awaitOp fid (mkEx (mkQ cap strat (x :: xs) (QState.closing r)
           [] [] aws ft) [])) fid = none) ∧
    (∀ (cap : Option Nat) (strat : Strategy) (ft : Bool) (fid : Nat),
       resultOf (awaitOp fid (mkEx (mkQ cap strat ([] : List Nat)
           (QState.closed (CloseReason.endNormally : CloseReason String)) [] [] [] ft) []))
           fid = some (Res.awaited none) ∧
       resultOf (awaitOp fid (mkEx (mkQ cap strat ([] : List Nat)
           (QState.closed (CloseReason.shutDown : CloseReason String)) [] [] [] ft) []))
           fid = some (Res.awaited none)) ∧
    (∀ (cap : Option Nat) (strat : Strategy) (ft : Bool) (fid : Nat) (e : String),
       resultOf (awaitOp fid (mkEx (mkQ cap strat ([] : List Nat)
           (QState.closed (CloseReason.failed e)) [] [] [] ft) [])) fid
           = some (Res.awaited (some e))) := by
  refine ⟨by decide, ?_, ?_, ?_, ?_⟩
  · intro cap strat buf aws ft fid
    simp only [awaitOp, mkQ, mkEx]
    rw [norm_eq_self _ ?hop]
    case hop => exact rstep_none_idle cap strat buf (aws ++ [fid]) ft []
    rfl
  · intro cap strat x xs r aws ft fid
    simp only [awaitOp, mkQ, mkEx]
    rw [norm_eq_self _ ?hcl]
    case hcl => exact rstep_none_closing_cons cap strat x xs r (aws ++ [fid]) ft []
    rfl
  · intro cap strat ft fid
    constructor
    · simp [awaitOp, resultOf, mkQ, mkEx]
    · simp [awaitOp, resultOf, mkQ, mkEx]
  · intro cap strat ft fid e
    simp [awaitOp, resultOf, mkQ, mkEx]

/-- C9: Bounded(0) is a synchronous hand-off — for any offered values `x`
and `y`, a forked `offer x` stays parked until a take arrives, whereupon
the taker receives exactly `x` and the offer completes with `true`; in the
other arrival order a parked take is completed with exactly `y` by the
later `offer y`, which also completes with `true`. -/
theorem bounded_zero_synchronous_handoff (x y : Nat) :
    resultOf (c9A x) 0 = none ∧
    resultOf (c9B x y) 1 = some (Res.took x) ∧
    resultOf (c9B x y) 0 = some (Res.offered true) ∧
    resultOf (c9B x y) 2 = some (Res.took y) ∧
    resultOf (c9B x y) 3 = some (Res.offered true) :=
  ⟨rfl, rfl, rfl, rfl, rfl⟩

/-- C10: `fail` does not drop pending parked offers — with producers parked
on a full Bounded(2) queue when `fail "boom"` is called, a full drain still
delivers `[1,2,3,4,5]` (buffered items first, then the pending parked
items, in FIFO order) and only then surfaces the failure `"boom"`; both
producers complete successfully, so no accepted item is lost. -/
theorem fail_keeps_pending_offers :
    c10Drain.1 = [1, 2, 3, 4, 5] ∧
    c10Drain.2.1 = some (QErr.err "boom") ∧
    resultOf c10Drain.2.2 0 = some (Res.offeredAll []) ∧
    resultOf c10Drain.2.2 1 = some (Res.offered true) := by
  decide

end QueueSpec
